import Mathlib

/-!
Verification of the quota + cooldown ledger and the OTP request orchestrator of
`customer_otp_bot.py`, as a shallow embedding in Lean.

Modelling conventions:
* Python strings are `List Char`; `str.strip`/`str.lower` become `pyStrip`/`pyLower`
  (ASCII case folding, which covers the configured domains and emails in scope).
* Telegram user ids (Python `int`, used as `str(user_id)` dictionary keys; the
  conversion is injective) are `Nat`; unix timestamps are `Nat` and are passed
  explicitly to every operation that reads the clock.
* The three dictionaries of `StateManager.state` are total functions into `Option`,
  `none` meaning the key is absent.
* The network is an oracle: each request carries the behaviour of its
  `fetch_otp_from_generator` call (returned value, or which exception it raised).
* `os._exit(1)` is modelled by the `exited` flag of `BotState`; a trace driver
  stops dispatching commands once the flag is set.
* `_save_state` failures are logged and swallowed by the source, and the in-memory
  state stays authoritative, so persistence is not modelled beyond `_load_state`.
-/

namespace OtpBot

/-- Characters of the default allowed email domain (env `ALLOWED_DOMAIN`,
default `"yotomail.com"`). -/
def ALLOWED_DOMAIN : List Char := String.toList "yotomail.com"

/-- Source constant `COOLDOWN_SECONDS = 180`: cooldown armed after a completed
fetch (success or no OTP found). -/
def COOLDOWN_SECONDS : Nat := 180

/-- Environment-derived configuration of the bot process. -/
structure Config where
  allowed_domain : List Char
  max_requests : Nat
  delay_seconds : Nat
  error_threshold : Nat
  deriving DecidableEq

/-- The configuration made of the source defaults. -/
def defaultConfig : Config := ⟨ALLOWED_DOMAIN, 10, 30, 6⟩

/-! ### JSON and `StateManager._load_state` -/

/-- JSON values, as produced by a successful `json.load`. -/
inductive Json where
  | obj (entries : List (String × Json))
  | arr (elems : List Json)
  | str (s : String)
  | num (n : Int)
  | bool (b : Bool)
  | null

/-- What opening and `json.load`-ing the backing file can come to: the file is
missing, reading or parsing raises, or parsing yields a JSON value. -/
inductive FileRead where
  | missing
  | readError
  | content (j : Json)

/-- Python dictionary lookup on the (insertion-ordered) entry list. -/
def getEntry (es : List (String × Json)) (k : String) : Option Json :=
  (es.find? (fun e => e.1 == k)).map (fun e => e.2)

/-- Python `dict.setdefault k v`: keep an existing entry, append `(k, v)` otherwise. -/
def setdefault (es : List (String × Json)) (k : String) (v : Json) :
    List (String × Json) :=
  if (getEntry es k).isSome then es else es ++ [(k, v)]

/-- The three `setdefault` normalisation steps of `_load_state`. -/
def normalizeState (es : List (String × Json)) : List (String × Json) :=
  setdefault (setdefault (setdefault es "user_requests" (Json.obj []))
    "cached_otps" (Json.obj [])) "cooldowns" (Json.obj [])

/-- Embedding of `StateManager._load_state`: a missing file or a raising
`open`/`json.load` yields `{}`; then the three keys are `setdefault`-ed.  The
`setdefault` calls sit outside the `try` block, so a JSON value that is not an
object (no `setdefault` attribute) raises `AttributeError`. -/
def load_state : FileRead → Except String (List (String × Json))
  | FileRead.missing => Except.ok (normalizeState [])
  | FileRead.readError => Except.ok (normalizeState [])
  | FileRead.content (Json.obj es) => Except.ok (normalizeState es)
  | FileRead.content _ => Except.error "AttributeError: setdefault"

/-! ### The in-memory ledger and the `StateManager` operations -/

/-- The three mappings of `StateManager.state` (`user_requests`, `cached_otps`,
`cooldowns`). A cached OTP carries its timestamp; a cooldown entry is the
absolute `next_allowed` unix time. -/
structure Ledger where
  user_requests : Nat → Option Nat
  cached_otps : List Char → Option (List Char × Nat)
  cooldowns : Nat → Option Nat

/-- The ledger with all three mappings empty. -/
def emptyLedger : Ledger := ⟨fun _ => none, fun _ => none, fun _ => none⟩

/-- `StateManager.get_user_requests`: `self.state["user_requests"].get(str(user_id), 0)`. -/
def get_user_requests (l : Ledger) (uid : Nat) : Nat :=
  (l.user_requests uid).getD 0

/-- `StateManager.increment_user_requests`. -/
def increment_user_requests (l : Ledger) (uid : Nat) : Ledger :=
  { l with user_requests :=
      fun v => if v = uid then some (get_user_requests l uid + 1) else l.user_requests v }

/-- `StateManager.reset_user_limit`: deletes the entry if present. -/
def reset_user_limit (l : Ledger) (uid : Nat) : Ledger :=
  { l with user_requests := fun v => if v = uid then none else l.user_requests v }

/-- `StateManager.cache_otp`: overwrites the entry with the code and the current time. -/
def cache_otp (l : Ledger) (email otp : List Char) (now : Nat) : Ledger :=
  { l with cached_otps := fun e => if e = email then some (otp, now) else l.cached_otps e }

/-- `StateManager.clear_email`: removes the entry if present, reports whether it did. -/
def clear_email (l : Ledger) (email : List Char) : Ledger × Bool :=
  if (l.cached_otps email).isSome then
    ({ l with cached_otps := fun e => if e = email then none else l.cached_otps e }, true)
  else (l, false)

/-- `StateManager.set_cooldown`: `next_allowed = int(time.time()) + seconds`. -/
def set_cooldown (l : Ledger) (uid seconds now : Nat) : Ledger :=
  { l with cooldowns := fun v => if v = uid then some (now + seconds) else l.cooldowns v }

/-- `StateManager.remaining_cooldown`: `max(0, next_allowed - now)`, with `0` for
an unknown user (`.get(str(user_id), 0)`). -/
def remaining_cooldown (l : Ledger) (uid now : Nat) : Nat :=
  let next := (l.cooldowns uid).getD 0
  if next > now then next - now else 0

/-! ### Email normalisation and the domain gate -/

/-- Python `str.strip()`: drop whitespace from both ends. -/
def pyStrip (s : List Char) : List Char :=
  ((s.dropWhile Char.isWhitespace).reverse.dropWhile Char.isWhitespace).reverse

/-- Python `str.lower()` (ASCII folding). -/
def pyLower (s : List Char) : List Char := s.map Char.toLower

/-- `context.args[0].strip().lower()` of `otp_command`. -/
def normalizeEmail (arg : List Char) : List Char := pyLower (pyStrip arg)

/-- The domain gate of `otp_command`:
`email.endswith(f"@\x7bALLOWED_DOMAIN\x7d")` on the normalised email. -/
def domainGate (domain arg : List Char) : Bool :=
  ('@' :: domain).isSuffixOf (normalizeEmail arg)

/-- Modelled from the spec: the domain of an email address, i.e. the part after
the last `'@'`, `none` when the address has no `'@'` at all. -/
def domainAfterLastAt (s : List Char) : Option (List Char) :=
  if s.contains '@' then some ((s.reverse.takeWhile (fun c => c != '@')).reverse)
  else none

/-- Modelled from the spec: the local part of an email address, i.e. the part
before the last `'@'`. -/
def localBeforeLastAt (s : List Char) : Option (List Char) :=
  if s.contains '@' then
    some (((s.reverse.dropWhile (fun c => c != '@')).drop 1).reverse)
  else none

/-! ### OTP extraction (`fetch_otp_from_generator`) -/

/-- Regex word character `\w` (ASCII model): alphanumeric or underscore. -/
def isWordChar (c : Char) : Bool := c.isAlphanum || c == '_'

/-- Boundary after the token: end of text, or a non-word character. -/
def nextBoundary (s : List Char) : Bool :=
  match s with
  | [] => true
  | c :: _ => !isWordChar c

/-- Whether `\b(\d{6})\b` matches at the current scan position: the previous
character (if any) is not a word character, the next six characters are digits,
and the character after them (if any) is not a word character. -/
def otpMatchHere (prevWord : Bool) (s : List Char) : Bool :=
  !prevWord && ((s.take 6).length == 6) && (s.take 6).all Char.isDigit
    && nextBoundary (s.drop 6)

/-- Leftmost `OTP_PATTERN` match of one element's text (the regex engine's
left-to-right scan): `re.findall(r"\b(\d{6})\b", text)[0]` when the list is
non-empty. `prevWord` records whether the character just before the current
position is a word character (`false` at the start of the text). -/
def findCode (prevWord : Bool) : List Char → Option (List Char)
  | [] => none
  | c :: rest =>
    if otpMatchHere prevWord (c :: rest) then some ((c :: rest).take 6)
    else findCode (isWordChar c) rest

/-- The extraction loop of `fetch_otp_from_generator`: walk the element texts in
document order and return the first element's first match; `None` when no
element matches. -/
def extract_otp : List (List Char) → Option (List Char)
  | [] => none
  | t :: ts =>
    match findCode false t with
    | some otp => some otp
    | none => extract_otp ts

/-- The boundary context at index `i` of a text scanned with incoming context
`prev`: the scan context at the start, the word-character status of `t[i-1]`
afterwards. -/
def prevWordCtx (prev : Bool) (t : List Char) (i : Nat) : Bool :=
  match i with
  | 0 => prev
  | j + 1 => ((t.get? j).map isWordChar).getD false

/-- Modelled from the spec: every index of `t` at which a strict 6-digit
boundary token starts, in increasing (document) order. -/
def tokenStartsFrom (prev : Bool) (t : List Char) : List Nat :=
  (List.range t.length).filter (fun i => otpMatchHere (prevWordCtx prev t i) (t.drop i))

/-- Modelled from the spec: the 6-digit token at the smallest starting index of
the text, `none` when the text has no token. -/
def specFirstToken (t : List Char) : Option (List Char) :=
  (tokenStartsFrom false t).head?.map (fun i => (t.drop i).take 6)

/-- Modelled from the spec: the first token in document order over the whole
element list — the first element owning a token yields its first token. -/
def specExtract (els : List (List Char)) : Option (List Char) :=
  els.findSome? specFirstToken

/-! ### The request orchestrator (`otp_command`) -/

/-- Behaviour of the single `fetch_otp_from_generator` call of a request:
it returns a value (`None` or a string), or raises `httpx.HTTPError`, or raises
some other exception. -/
inductive FetchOutcome where
  | returns (res : Option (List Char))
  | raisesHttp
  | raisesOther
  deriving DecidableEq

/-- How one dispatched `/otp` request ended. -/
inductive Outcome where
  | blockedCooldown
  | blockedNoArgs
  | blockedDomain
  | blockedQuota
  | success
  | notFound
  | fetchError
  deriving DecidableEq

/-- The messages `otp_command` can send, with the data interpolated into them. -/
inductive Reply where
  | cooldownWait (secs : Nat)
  | provideEmail
  | invalidDomain
  | limitReached (maxReq : Nat)
  | waiting (delay : Nat) (email : List Char) (remainingIfSuccess : Int)
  | otpFound (otp email : List Char) (remaining : Int)
  | noOtp
  | networkError
  | unexpectedError
  deriving DecidableEq

/-- One incoming `/otp` update: the sender, the command arguments, the current
unix time, and the behaviour of the fetch the request would perform. -/
structure Request where
  uid : Nat
  args : List (List Char)
  now : Nat
  fetch : FetchOutcome
  deriving DecidableEq

/-- Process state: the ledger, the `_CONSEC_ERRORS` global, and whether
`os._exit` has run. -/
structure BotState where
  ledger : Ledger
  consec_errors : Nat
  exited : Bool

/-- Fresh process over an empty ledger. -/
def initState : BotState := ⟨emptyLedger, 0, false⟩

/-- `_note_net_success`: reset the consecutive-error counter. -/
def note_net_success (st : BotState) : BotState := { st with consec_errors := 0 }

/-- `_note_net_error_and_maybe_restart`: increment the counter and `os._exit(1)`
when the positive threshold is reached. -/
def note_net_error_and_maybe_restart (cfg : Config) (st : BotState) : BotState :=
  let n := st.consec_errors + 1
  if 0 < cfg.error_threshold ∧ cfg.error_threshold ≤ n then
    { st with consec_errors := n, exited := true }
  else
    { st with consec_errors := n }

/-- Embedding of `otp_command`: the cooldown gate, the missing-argument check,
the domain gate, the quota gate, the fixed delay (pure, so invisible), the
fetch, and the outcome handling.  Returns the new process state, the replies
sent (in order), and the outcome classification.  On an error outcome that
trips the restart threshold the process exits before the error reply is sent. -/
def otp_command (cfg : Config) (st : BotState) (req : Request) :
    BotState × List Reply × Outcome :=
  let cd := remaining_cooldown st.ledger req.uid req.now
  if 0 < cd then (st, [Reply.cooldownWait cd], Outcome.blockedCooldown)
  else
    match req.args with
    | [] => (st, [Reply.provideEmail], Outcome.blockedNoArgs)
    | arg :: _ =>
      let email := normalizeEmail arg
      if !(('@' :: cfg.allowed_domain).isSuffixOf email) then
        (st, [Reply.invalidDomain], Outcome.blockedDomain)
      else
        let current := get_user_requests st.ledger req.uid
        if cfg.max_requests ≤ current then
          (st, [Reply.limitReached cfg.max_requests], Outcome.blockedQuota)
        else
          let waitMsg := Reply.waiting cfg.delay_seconds email
            ((cfg.max_requests : Int) - ((current : Int) + 1))
          match req.fetch with
          | FetchOutcome.returns (some (c :: cs)) =>
            let otp := c :: cs
            let l1 := increment_user_requests st.ledger req.uid
            let l2 := cache_otp l1 email otp req.now
            let l3 := set_cooldown l2 req.uid COOLDOWN_SECONDS req.now
            let st1 := note_net_success { st with ledger := l3 }
            let nowUsed := get_user_requests l3 req.uid
            (st1,
              [waitMsg, Reply.otpFound otp email ((cfg.max_requests : Int) - (nowUsed : Int))],
              Outcome.success)
          | FetchOutcome.returns _ =>
            let l1 := set_cooldown st.ledger req.uid COOLDOWN_SECONDS req.now
            (note_net_success { st with ledger := l1 }, [waitMsg, Reply.noOtp],
              Outcome.notFound)
          | FetchOutcome.raisesHttp =>
            let st1 := note_net_error_and_maybe_restart cfg st
            (st1, if st1.exited then [waitMsg] else [waitMsg, Reply.networkError],
              Outcome.fetchError)
          | FetchOutcome.raisesOther =>
            let st1 := note_net_error_and_maybe_restart cfg st
            (st1, if st1.exited then [waitMsg] else [waitMsg, Reply.unexpectedError],
              Outcome.fetchError)

/-- Dispatch one update: a process that has exited processes nothing. -/
def stepB (cfg : Config) (st : BotState) (req : Request) : BotState × Option Outcome :=
  if st.exited then (st, none)
  else
    let r := otp_command cfg st req
    (r.1, some r.2.2)

/-- Run a sequence of `/otp` requests, logging `(sender, outcome)` for each
request that was actually dispatched. -/
def runTrace (cfg : Config) : BotState → List Request → BotState × List (Nat × Outcome)
  | st, [] => (st, [])
  | st, req :: reqs =>
    let s := stepB cfg st req
    match s.2 with
    | none => runTrace cfg s.1 reqs
    | some out =>
      let r := runTrace cfg s.1 reqs
      (r.1, (req.uid, out) :: r.2)

/-- Number of success outcomes attributed to user `u` in a trace log. -/
def successCount (u : Nat) (log : List (Nat × Outcome)) : Nat :=
  log.countP (fun p => decide (u = p.1 ∧ p.2 = Outcome.success))

/-- Modelled from the amended spec: the gate order of `otp_command` — cooldown
check, missing-argument check, domain validation, quota check, then the outcome
of the fetch. -/
def gateOrderSpec (cfg : Config) (st : BotState) (req : Request) : Outcome :=
  if 0 < remaining_cooldown st.ledger req.uid req.now then Outcome.blockedCooldown
  else
    match req.args with
    | [] => Outcome.blockedNoArgs
    | arg :: _ =>
      if !(('@' :: cfg.allowed_domain).isSuffixOf (normalizeEmail arg)) then
        Outcome.blockedDomain
      else if cfg.max_requests ≤ get_user_requests st.ledger req.uid then
        Outcome.blockedQuota
      else
        match req.fetch with
        | FetchOutcome.returns (some (_ :: _)) => Outcome.success
        | FetchOutcome.returns _ => Outcome.notFound
        | FetchOutcome.raisesHttp => Outcome.fetchError
        | FetchOutcome.raisesOther => Outcome.fetchError

/-- A state with the cached entry of one email overridden, everything else
untouched (used to state that the success path ignores the previous cache). -/
def withCachedValue (st : BotState) (email : List Char)
    (v : Option (List Char × Nat)) : BotState :=
  { st with ledger :=
      { st.ledger with cached_otps :=
          fun e => if e = email then v else st.ledger.cached_otps e } }

/-- The normalised email of a request (empty when no argument was given). -/
def emailOf (req : Request) : List Char :=
  match req.args with
  | [] => []
  | arg :: _ => normalizeEmail arg

/-- The string value the fetch of a request returned (empty when it returned
`None` or raised). -/
def fetchedCode (req : Request) : List Char :=
  match req.fetch with
  | FetchOutcome.returns (some l) => l
  | _ => []

/-- A ledger where user 1 has used up the default quota of 10. -/
def exhaustedLedger : Ledger :=
  { emptyLedger with user_requests := fun v => if v = 1 then some 10 else none }

/-- A process state in which user 1 is over the default quota. -/
def overQuotaState : BotState := ⟨exhaustedLedger, 0, false⟩

/-- A request by user 1 carrying a wrong-domain email address. -/
def wrongDomainReq : Request :=
  ⟨1, [String.toList "user@other.com"], 0, FetchOutcome.returns none⟩

/-- A request by user 1 for a valid address whose fetch returns code 123456. -/
def successReq : Request :=
  ⟨1, [String.toList "a@yotomail.com"], 100,
    FetchOutcome.returns (some (String.toList "123456"))⟩

end OtpBot

/-! ## Theorems -/

namespace OtpBot

/-! ### Ledger load (`_load_state`) — claim C2 -/

theorem getEntry_setdefault_self (es : List (String × Json)) (k : String) (v : Json) :
    getEntry (setdefault es k v) k = some ((getEntry es k).getD v) := by
  unfold setdefault
  cases h : getEntry es k with
  | none =>
    simp only [h, Option.isSome_none, Bool.false_eq_true, if_false, Option.getD_none]
    unfold getEntry at h ⊢
    rw [List.find?_append]
    cases hf : es.find? (fun e => e.1 == k) with
    | none => simp [hf, List.find?]
    | some e => simp [hf] at h
  | some w =>
    simp [h]

theorem getEntry_setdefault_other (es : List (String × Json)) (k k2 : String) (v : Json)
    (hne : k2 ≠ k) : getEntry (setdefault es k v) k2 = getEntry es k2 := by
  unfold setdefault
  cases h : (getEntry es k).isSome with
  | true => simp
  | false =>
    simp only [Bool.false_eq_true, if_false]
    unfold getEntry
    rw [List.find?_append]
    cases hf : es.find? (fun e => e.1 == k2) with
    | some e => simp [hf]
    | none =>
      have hkk : (k == k2) = false := beq_eq_false_iff_ne.mpr (Ne.symm hne)
      simp [hf, List.find?, hkk]

/-- C2 counterexample: on a backing file holding the valid JSON value `[]` — a
value that is not an object — `_load_state` raises (`setdefault` is called on a
list, outside the `try` block), contradicting the claim that the load never
raises on a JSON value that is not an object. -/
theorem load_state_raises_on_array :
    load_state (FileRead.content (Json.arr []))
      = Except.error "AttributeError: setdefault" := rfl

/-- C2 (amended): on a missing file or unreadable/invalid JSON, `_load_state`
returns normally with all three mappings present (each defaulting to an empty
object); on a valid JSON object it returns normally, keeping existing entries
and adding empty objects for the missing keys; but on a valid JSON value that
is not an object it raises. -/
theorem load_state_amended :
    (load_state FileRead.missing = Except.ok (normalizeState [])
      ∧ load_state FileRead.readError = Except.ok (normalizeState []))
    ∧ (∀ es, load_state (FileRead.content (Json.obj es)) = Except.ok (normalizeState es))
    ∧ (∀ es k, k = "user_requests" ∨ k = "cached_otps" ∨ k = "cooldowns" →
        getEntry (normalizeState es) k = some ((getEntry es k).getD (Json.obj [])))
    ∧ (∀ elems, (load_state (FileRead.content (Json.arr elems))).isOk = false)
    ∧ (∀ s, (load_state (FileRead.content (Json.str s))).isOk = false)
    ∧ (∀ n, (load_state (FileRead.content (Json.num n))).isOk = false)
    ∧ (∀ b, (load_state (FileRead.content (Json.bool b))).isOk = false)
    ∧ (load_state (FileRead.content Json.null)).isOk = false := by
  refine ⟨⟨rfl, rfl⟩, fun es => rfl, ?_, fun elems => rfl, fun s => rfl,
    fun n => rfl, fun b => rfl, rfl⟩
  intro es k hk
  unfold normalizeState
  rcases hk with h | h | h <;> subst h
  · rw [getEntry_setdefault_other _ _ _ _ (by decide),
      getEntry_setdefault_other _ _ _ _ (by decide), getEntry_setdefault_self]
  · rw [getEntry_setdefault_other _ _ _ _ (by decide), getEntry_setdefault_self,
      getEntry_setdefault_other _ _ _ _ (by decide)]
  · rw [getEntry_setdefault_self, getEntry_setdefault_other _ _ _ _ (by decide),
      getEntry_setdefault_other _ _ _ _ (by decide)]

/-- C2 witness: the third conjunct of the amended load theorem evaluated on
the concrete object `{"user_requests": 3}` for the key `"cooldowns"`. -/
theorem load_state_amended_witness :
    getEntry (normalizeState [("user_requests", Json.num 3)]) "cooldowns"
      = some ((getEntry [("user_requests", Json.num 3)] "cooldowns").getD (Json.obj [])) :=
  load_state_amended.2.2.1 [("user_requests", Json.num 3)] "cooldowns" (Or.inr (Or.inr rfl))

/-! ### Domain validation — claim C3 -/

theorem append_at_prefix_iff (dr : List Char) (hd : '@' ∉ dr) :
    ∀ r : List Char,
      (dr ++ ['@']) <+: r ↔ ('@' ∈ r ∧ r.takeWhile (fun c => c != '@') = dr) := by
  induction dr with
  | nil =>
    intro r
    cases r with
    | nil => simp
    | cons c t =>
      by_cases hc : c = '@'
      · subst hc; simp
      · simp [List.cons_prefix_cons, hc, Ne.symm hc, List.takeWhile_cons, bne_iff_ne]
  | cons a dr ih =>
    have ha : a ≠ '@' := fun h => hd (h ▸ List.mem_cons_self a dr)
    have hd2 : '@' ∉ dr := fun h => hd (List.mem_cons_of_mem a h)
    intro r
    cases r with
    | nil => simp
    | cons c t =>
      by_cases hc : c = '@'
      · subst hc
        simp only [List.cons_append, List.cons_prefix_cons, List.takeWhile_cons,
          bne_self_eq_false, Bool.false_eq_true, if_false]
        constructor
        · rintro ⟨h1, -⟩; exact absurd h1 ha
        · rintro ⟨-, h2⟩; exact absurd h2.symm (List.cons_ne_nil a dr)
      · simp only [List.cons_append, List.cons_prefix_cons, ih hd2 t,
          List.mem_cons, List.takeWhile_cons, bne_iff_ne, ne_eq, hc,
          not_false_eq_true, if_true]
        constructor
        · rintro ⟨h1, h2, h3⟩
          exact ⟨Or.inr h2, by rw [h1, h3]⟩
        · rintro ⟨h1, h2⟩
          rcases h1 with h1 | h1
          · exact absurd h1.symm hc
          · rw [List.cons_eq_cons] at h2
            exact ⟨h2.1.symm, h1, h2.2⟩

theorem endsWith_domain_iff (d e : List Char) (hd : '@' ∉ d) :
    ('@' :: d).isSuffixOf e = true ↔ domainAfterLastAt e = some d := by
  rw [List.isSuffixOf_iff_suffix, ← List.reverse_prefix, List.reverse_cons,
    append_at_prefix_iff d.reverse (by simpa using hd) e.reverse]
  unfold domainAfterLastAt
  by_cases hmem : '@' ∈ e
  · have hc : e.contains '@' = true := by
      simp [List.contains, List.elem_eq_mem, hmem]
    simp [hc, hmem, List.reverse_eq_iff]
  · have hc : e.contains '@' = false := by
      simp [List.contains, List.elem_eq_mem, hmem]
    simp [hc, hmem]

/-- C3 counterexample: the address `"@yotomail.com"`, whose local part is
empty, passes the domain gate of `otp_command` (the code only checks
`email.endswith("@" + ALLOWED_DOMAIN)`), while the claim says an email
consisting of only `'@'` followed by the allowed domain is rejected. -/
theorem domain_gate_accepts_empty_local :
    domainGate ALLOWED_DOMAIN (String.toList "@yotomail.com") = true
      ∧ localBeforeLastAt (normalizeEmail (String.toList "@yotomail.com")) = some [] := by
  constructor <;> rfl

/-- C3 (amended): the request proceeds past domain validation iff, after
stripping surrounding whitespace and lowercasing, the part of the email after
its last `'@'` equals the configured allowed domain; the local part is not
inspected and may be empty.  (Case-insensitivity of the domain match comes from
the lowercasing; the hypothesis holds for any real domain, which contains no
`'@'`.) -/
theorem domain_gate_iff (d arg : List Char) (hd : '@' ∉ d) :
    domainGate d arg = true ↔ domainAfterLastAt (normalizeEmail arg) = some d := by
  unfold domainGate
  exact endsWith_domain_iff d (normalizeEmail arg) hd

/-- C3 witness: the amended domain-validation theorem applied to the default
domain and the mixed-case address `"USER@YOTOMAIL.COM"`, which is accepted. -/
theorem domain_gate_iff_witness :
    domainAfterLastAt (normalizeEmail (String.toList "USER@YOTOMAIL.COM"))
      = some ALLOWED_DOMAIN :=
  (domain_gate_iff ALLOWED_DOMAIN (String.toList "USER@YOTOMAIL.COM")
    (by decide)).mp (by rfl)

/-! ### Cooldown arithmetic (`set_cooldown` / `remaining_cooldown`) — claim C8 -/

/-- C8 counterexample: the claim quantifies over every seconds value, but with
`seconds = 0` the remaining cooldown immediately after `set_cooldown` is `0`,
which is not in the half-open interval `(0, 0]` (that interval is empty). -/
theorem set_cooldown_zero_escapes_interval :
    remaining_cooldown (set_cooldown emptyLedger 7 0 1000) 7 1000 = 0
      ∧ ¬ 0 < remaining_cooldown (set_cooldown emptyLedger 7 0 1000) 7 1000 := by
  constructor <;> decide

/-- C8 (amended): for every user `u` and every positive seconds value `s`,
immediately after `set_cooldown u s` the remaining cooldown is in `(0, s]`
(indeed it equals `s`); once real time is at or past the stored
`next_allowed` timestamp `t1 + s` the remaining cooldown is exactly `0`; and a
user with no cooldown record has remaining cooldown `0`. -/
theorem cooldown_window (l : Ledger) (u s t1 : Nat) (hs : 0 < s) :
    (0 < remaining_cooldown (set_cooldown l u s t1) u t1
      ∧ remaining_cooldown (set_cooldown l u s t1) u t1 ≤ s)
    ∧ (∀ t2, t1 + s ≤ t2 → remaining_cooldown (set_cooldown l u s t1) u t2 = 0)
    ∧ (∀ uid now, l.cooldowns uid = none → remaining_cooldown l uid now = 0) := by
  have key : ∀ t2, remaining_cooldown (set_cooldown l u s t1) u t2 = (t1 + s) - t2 := by
    intro t2
    simp [remaining_cooldown, set_cooldown]
    omega
  refine ⟨?_, ?_, ?_⟩
  · rw [key]; omega
  · intro t2 h2; rw [key]; omega
  · intro uid now h
    unfold remaining_cooldown
    simp [h]

/-- C8 witness: the amended cooldown theorem at the source cooldown of 180
seconds, set at time 50: at time 230 the remaining cooldown is 0. -/
theorem cooldown_window_witness :
    remaining_cooldown (set_cooldown emptyLedger 3 180 50) 3 230 = 0 :=
  (cooldown_window emptyLedger 3 180 50 (by decide)).2.1 230 (by decide)

/-! ### OTP extraction — claim C6 -/

theorem prevWordCtx_cons (prev : Bool) (c : Char) (rest : List Char) (j : Nat) :
    prevWordCtx prev (c :: rest) (j + 1) = prevWordCtx (isWordChar c) rest j := by
  cases j with
  | zero => rfl
  | succ k => rfl

theorem tokenStartsFrom_cons (prev : Bool) (c : Char) (rest : List Char) :
    tokenStartsFrom prev (c :: rest)
      = (if otpMatchHere prev (c :: rest) then [0] else [])
        ++ (tokenStartsFrom (isWordChar c) rest).map Nat.succ := by
  unfold tokenStartsFrom
  rw [List.length_cons, List.range_succ_eq_map, List.filter_cons]
  have hp : ((fun i => otpMatchHere (prevWordCtx prev (c :: rest) i) ((c :: rest).drop i))
        ∘ Nat.succ)
      = fun j => otpMatchHere (prevWordCtx (isWordChar c) rest j) (rest.drop j) := by
    funext j
    simp [Function.comp, prevWordCtx_cons, List.drop_succ_cons]
  rw [List.filter_map, hp]
  by_cases h0 : otpMatchHere prev (c :: rest) = true <;>
    simp [prevWordCtx, List.drop_zero, h0]

theorem findCode_eq_spec (t : List Char) : ∀ prev : Bool,
    findCode prev t = (tokenStartsFrom prev t).head?.map (fun i => (t.drop i).take 6) := by
  induction t with
  | nil => intro prev; rfl
  | cons c rest ih =>
    intro prev
    rw [tokenStartsFrom_cons]
    by_cases h : otpMatchHere prev (c :: rest) = true
    · simp [findCode, h]
    · have hb : otpMatchHere prev (c :: rest) = false := by
        cases hx : otpMatchHere prev (c :: rest) with
        | true => exact absurd hx h
        | false => rfl
      rw [show findCode prev (c :: rest) = findCode (isWordChar c) rest by
        simp [findCode, hb]]
      rw [ih (isWordChar c)]
      simp only [hb, Bool.false_eq_true, if_false, List.nil_append]
      cases hh : (tokenStartsFrom (isWordChar c) rest).head? with
      | none => simp [hh, List.head?_map]
      | some i => simp [hh, List.head?_map, List.drop_succ_cons]

theorem extract_otp_eq_spec : ∀ els : List (List Char),
    extract_otp els = specExtract els := by
  intro els
  induction els with
  | nil => rfl
  | cons t ts ih =>
    unfold extract_otp specExtract
    rw [List.findSome?_cons]
    have h : specFirstToken t = findCode false t := (findCode_eq_spec t false).symm
    rw [h]
    cases hf : findCode false t with
    | some m => rfl
    | none => exact ih

theorem extract_otp_none_iff : ∀ els : List (List Char),
    (extract_otp els = none
      ↔ els.all (fun t => (tokenStartsFrom false t).isEmpty) = true) := by
  intro els
  induction els with
  | nil => simp [extract_otp]
  | cons t ts ih =>
    have h := findCode_eq_spec t false
    cases hh : tokenStartsFrom false t with
    | nil =>
      rw [hh] at h
      simp only [List.head?_nil, Option.map_none] at h
      simp [extract_otp, h, hh, ih]
    | cons i l =>
      rw [hh] at h
      simp only [List.head?_cons, Option.map_some] at h
      simp [extract_otp, h, hh]

/-- C6: the extraction step of `fetch_otp_from_generator` returns exactly the
first strict 6-digit boundary token in document order — the first element (in
document order) owning a token yields its smallest-index token, a first-match
rather than best-match policy — and returns absent precisely when no element's
text contains such a token. -/
theorem extraction_first_match (els : List (List Char)) :
    extract_otp els = specExtract els
    ∧ (extract_otp els = none
        ↔ els.all (fun t => (tokenStartsFrom false t).isEmpty) = true) :=
  ⟨extract_otp_eq_spec els, extract_otp_none_iff els⟩

/-! ### Projection lemmas for the ledger operations and state helpers -/

@[simp] theorem increment_user_requests_cooldowns (l : Ledger) (uid : Nat) :
    (increment_user_requests l uid).cooldowns = l.cooldowns := rfl

@[simp] theorem increment_user_requests_cached (l : Ledger) (uid : Nat) :
    (increment_user_requests l uid).cached_otps = l.cached_otps := rfl

@[simp] theorem increment_user_requests_apply (l : Ledger) (uid v : Nat) :
    (increment_user_requests l uid).user_requests v
      = if v = uid then some (get_user_requests l uid + 1) else l.user_requests v := rfl

@[simp] theorem cache_otp_user_requests (l : Ledger) (email otp : List Char) (now : Nat) :
    (cache_otp l email otp now).user_requests = l.user_requests := rfl

@[simp] theorem cache_otp_cooldowns (l : Ledger) (email otp : List Char) (now : Nat) :
    (cache_otp l email otp now).cooldowns = l.cooldowns := rfl

@[simp] theorem cache_otp_apply (l : Ledger) (email otp : List Char) (now : Nat) (e : List Char) :
    (cache_otp l email otp now).cached_otps e
      = if e = email then some (otp, now) else l.cached_otps e := rfl

@[simp] theorem set_cooldown_user_requests (l : Ledger) (uid s now : Nat) :
    (set_cooldown l uid s now).user_requests = l.user_requests := rfl

@[simp] theorem set_cooldown_cached (l : Ledger) (uid s now : Nat) :
    (set_cooldown l uid s now).cached_otps = l.cached_otps := rfl

@[simp] theorem set_cooldown_apply (l : Ledger) (uid s now v : Nat) :
    (set_cooldown l uid s now).cooldowns v
      = if v = uid then some (now + s) else l.cooldowns v := rfl

@[simp] theorem note_net_success_ledger (st : BotState) :
    (note_net_success st).ledger = st.ledger := rfl

@[simp] theorem note_net_success_exited (st : BotState) :
    (note_net_success st).exited = st.exited := rfl

@[simp] theorem note_net_success_consec (st : BotState) :
    (note_net_success st).consec_errors = 0 := rfl

@[simp] theorem note_net_error_ledger (cfg : Config) (st : BotState) :
    (note_net_error_and_maybe_restart cfg st).ledger = st.ledger := by
  by_cases h : 0 < cfg.error_threshold ∧ cfg.error_threshold ≤ st.consec_errors + 1 <;>
    simp [note_net_error_and_maybe_restart, h]

@[simp] theorem note_net_error_consec (cfg : Config) (st : BotState) :
    (note_net_error_and_maybe_restart cfg st).consec_errors = st.consec_errors + 1 := by
  by_cases h : 0 < cfg.error_threshold ∧ cfg.error_threshold ≤ st.consec_errors + 1 <;>
    simp [note_net_error_and_maybe_restart, h]

theorem note_net_error_exited (cfg : Config) (st : BotState) :
    (note_net_error_and_maybe_restart cfg st).exited
      = (st.exited
          || decide (0 < cfg.error_threshold
              ∧ cfg.error_threshold ≤ st.consec_errors + 1)) := by
  by_cases h : 0 < cfg.error_threshold ∧ cfg.error_threshold ≤ st.consec_errors + 1 <;>
    simp [note_net_error_and_maybe_restart, h]

@[simp] theorem withCachedValue_cooldowns (st : BotState) (email : List Char)
    (v : Option (List Char × Nat)) :
    (withCachedValue st email v).ledger.cooldowns = st.ledger.cooldowns := rfl

@[simp] theorem withCachedValue_user_requests (st : BotState) (email : List Char)
    (v : Option (List Char × Nat)) :
    (withCachedValue st email v).ledger.user_requests = st.ledger.user_requests := rfl

@[simp] theorem withCachedValue_consec (st : BotState) (email : List Char)
    (v : Option (List Char × Nat)) :
    (withCachedValue st email v).consec_errors = st.consec_errors := rfl

@[simp] theorem withCachedValue_exited (st : BotState) (email : List Char)
    (v : Option (List Char × Nat)) :
    (withCachedValue st email v).exited = st.exited := rfl

@[simp] theorem remaining_cooldown_withCached (st : BotState) (email : List Char)
    (v : Option (List Char × Nat)) (uid now : Nat) :
    remaining_cooldown (withCachedValue st email v).ledger uid now
      = remaining_cooldown st.ledger uid now := rfl

@[simp] theorem get_user_requests_withCached (st : BotState) (email : List Char)
    (v : Option (List Char × Nat)) (uid : Nat) :
    get_user_requests (withCachedValue st email v).ledger uid
      = get_user_requests st.ledger uid := rfl

/-! ### Step-level characterisation of `otp_command` -/

theorem user_requests_after (cfg : Config) (st : BotState) (req : Request) (u : Nat) :
    (otp_command cfg st req).1.ledger.user_requests u
      = if u = req.uid ∧ (otp_command cfg st req).2.2 = Outcome.success
          then some (get_user_requests st.ledger req.uid + 1)
          else st.ledger.user_requests u := by
  by_cases h1 : 0 < remaining_cooldown st.ledger req.uid req.now
  · simp [otp_command, h1]
  · cases hargs : req.args with
    | nil => simp [otp_command, h1, hargs]
    | cons arg rest =>
      by_cases h2 : ('@' :: cfg.allowed_domain).isSuffixOf (normalizeEmail arg) = true
      · by_cases h3 : cfg.max_requests ≤ get_user_requests st.ledger req.uid
        · simp [otp_command, h1, hargs, h2, h3]
        · cases hf : req.fetch with
          | returns res =>
            cases res with
            | none => simp [otp_command, h1, hargs, h2, h3, hf]
            | some l =>
              cases l with
              | nil => simp [otp_command, h1, hargs, h2, h3, hf]
              | cons c cs => simp [otp_command, h1, hargs, h2, h3, hf]
          | raisesHttp => simp [otp_command, h1, hargs, h2, h3, hf]
          | raisesOther => simp [otp_command, h1, hargs, h2, h3, hf]
      · simp [otp_command, h1, hargs, h2]

theorem cooldowns_after (cfg : Config) (st : BotState) (req : Request) (u : Nat) :
    (otp_command cfg st req).1.ledger.cooldowns u
      = if u = req.uid ∧ ((otp_command cfg st req).2.2 = Outcome.success
            ∨ (otp_command cfg st req).2.2 = Outcome.notFound)
          then some (req.now + COOLDOWN_SECONDS)
          else st.ledger.cooldowns u := by
  by_cases h1 : 0 < remaining_cooldown st.ledger req.uid req.now
  · simp [otp_command, h1]
  · cases hargs : req.args with
    | nil => simp [otp_command, h1, hargs]
    | cons arg rest =>
      by_cases h2 : ('@' :: cfg.allowed_domain).isSuffixOf (normalizeEmail arg) = true
      · by_cases h3 : cfg.max_requests ≤ get_user_requests st.ledger req.uid
        · simp [otp_command, h1, hargs, h2, h3]
        · cases hf : req.fetch with
          | returns res =>
            cases res with
            | none => simp [otp_command, h1, hargs, h2, h3, hf]
            | some l =>
              cases l with
              | nil => simp [otp_command, h1, hargs, h2, h3, hf]
              | cons c cs => simp [otp_command, h1, hargs, h2, h3, hf]
          | raisesHttp => simp [otp_command, h1, hargs, h2, h3, hf]
          | raisesOther => simp [otp_command, h1, hargs, h2, h3, hf]
      · simp [otp_command, h1, hargs, h2]

theorem cached_after (cfg : Config) (st : BotState) (req : Request) (e : List Char) :
    (otp_command cfg st req).1.ledger.cached_otps e
      = if e = emailOf req ∧ (otp_command cfg st req).2.2 = Outcome.success
          then some (fetchedCode req, req.now)
          else st.ledger.cached_otps e := by
  by_cases h1 : 0 < remaining_cooldown st.ledger req.uid req.now
  · simp [otp_command, h1]
  · cases hargs : req.args with
    | nil => simp [otp_command, h1, hargs]
    | cons arg rest =>
      by_cases h2 : ('@' :: cfg.allowed_domain).isSuffixOf (normalizeEmail arg) = true
      · by_cases h3 : cfg.max_requests ≤ get_user_requests st.ledger req.uid
        · simp [otp_command, h1, hargs, h2, h3]
        · cases hf : req.fetch with
          | returns res =>
            cases res with
            | none => simp [otp_command, h1, hargs, h2, h3, hf]
            | some l =>
              cases l with
              | nil => simp [otp_command, h1, hargs, h2, h3, hf]
              | cons c cs =>
                simp [otp_command, h1, hargs, h2, h3, hf, emailOf, fetchedCode]
          | raisesHttp => simp [otp_command, h1, hargs, h2, h3, hf]
          | raisesOther => simp [otp_command, h1, hargs, h2, h3, hf]
      · simp [otp_command, h1, hargs, h2]

theorem consec_after (cfg : Config) (st : BotState) (req : Request) :
    (otp_command cfg st req).1.consec_errors
      = if (otp_command cfg st req).2.2 = Outcome.success
            ∨ (otp_command cfg st req).2.2 = Outcome.notFound then 0
        else if (otp_command cfg st req).2.2 = Outcome.fetchError
          then st.consec_errors + 1
        else st.consec_errors := by
  by_cases h1 : 0 < remaining_cooldown st.ledger req.uid req.now
  · simp [otp_command, h1]
  · cases hargs : req.args with
    | nil => simp [otp_command, h1, hargs]
    | cons arg rest =>
      by_cases h2 : ('@' :: cfg.allowed_domain).isSuffixOf (normalizeEmail arg) = true
      · by_cases h3 : cfg.max_requests ≤ get_user_requests st.ledger req.uid
        · simp [otp_command, h1, hargs, h2, h3]
        · cases hf : req.fetch with
          | returns res =>
            cases res with
            | none => simp [otp_command, h1, hargs, h2, h3, hf]
            | some l =>
              cases l with
              | nil => simp [otp_command, h1, hargs, h2, h3, hf]
              | cons c cs => simp [otp_command, h1, hargs, h2, h3, hf]
          | raisesHttp => simp [otp_command, h1, hargs, h2, h3, hf]
          | raisesOther => simp [otp_command, h1, hargs, h2, h3, hf]
      · simp [otp_command, h1, hargs, h2]

theorem exited_after (cfg : Config) (st : BotState) (req : Request) :
    (otp_command cfg st req).1.exited
      = if (otp_command cfg st req).2.2 = Outcome.fetchError
          then (st.exited
            || decide (0 < cfg.error_threshold
                ∧ cfg.error_threshold ≤ st.consec_errors + 1))
          else st.exited := by
  by_cases h1 : 0 < remaining_cooldown st.ledger req.uid req.now
  · simp [otp_command, h1]
  · cases hargs : req.args with
    | nil => simp [otp_command, h1, hargs]
    | cons arg rest =>
      by_cases h2 : ('@' :: cfg.allowed_domain).isSuffixOf (normalizeEmail arg) = true
      · by_cases h3 : cfg.max_requests ≤ get_user_requests st.ledger req.uid
        · simp [otp_command, h1, hargs, h2, h3]
        · cases hf : req.fetch with
          | returns res =>
            cases res with
            | none => simp [otp_command, h1, hargs, h2, h3, hf]
            | some l =>
              cases l with
              | nil => simp [otp_command, h1, hargs, h2, h3, hf]
              | cons c cs => simp [otp_command, h1, hargs, h2, h3, hf]
          | raisesHttp => simp [otp_command, h1, hargs, h2, h3, hf, note_net_error_exited]
          | raisesOther => simp [otp_command, h1, hargs, h2, h3, hf, note_net_error_exited]
      · simp [otp_command, h1, hargs, h2]

theorem success_quota_lt (cfg : Config) (st : BotState) (req : Request)
    (hsucc : (otp_command cfg st req).2.2 = Outcome.success) :
    get_user_requests st.ledger req.uid < cfg.max_requests := by
  by_cases h1 : 0 < remaining_cooldown st.ledger req.uid req.now
  · simp [otp_command, h1] at hsucc
  · cases hargs : req.args with
    | nil => simp [otp_command, h1, hargs] at hsucc
    | cons arg rest =>
      by_cases h2 : ('@' :: cfg.allowed_domain).isSuffixOf (normalizeEmail arg) = true
      · by_cases h3 : cfg.max_requests ≤ get_user_requests st.ledger req.uid
        · simp [otp_command, h1, hargs, h2, h3] at hsucc
        · omega
      · simp [otp_command, h1, hargs, h2] at hsucc

/-! ### Gate order — claim C4 -/

/-- C4 counterexample: user 1 is over quota (10 of 10 used) and supplies the
wrong-domain address `"user@other.com"`; the code rejects at domain validation
with the invalid-domain reply, not at the quota check with the limit-reached
reply as the claim states. -/
theorem over_quota_wrong_domain_rejected_at_domain :
    (otp_command defaultConfig overQuotaState wrongDomainReq).2.2 = Outcome.blockedDomain
    ∧ (otp_command defaultConfig overQuotaState wrongDomainReq).2.1 = [Reply.invalidDomain]
    ∧ ¬ (otp_command defaultConfig overQuotaState wrongDomainReq).2.2
        = Outcome.blockedQuota := by
  refine ⟨?_, ?_, ?_⟩ <;> decide

/-- C4 (amended): the orchestrator performs its gates in the order cooldown
check, missing-argument check, domain validation, quota check, fixed delay,
fetch — in particular a user who is both over quota and supplies a wrong-domain
email is rejected at domain validation, not at the quota check. -/
theorem otp_command_gate_order (cfg : Config) (st : BotState) (req : Request) :
    (otp_command cfg st req).2.2 = gateOrderSpec cfg st req := by
  by_cases h1 : 0 < remaining_cooldown st.ledger req.uid req.now
  · simp [otp_command, gateOrderSpec, h1]
  · cases hargs : req.args with
    | nil => simp [otp_command, gateOrderSpec, h1, hargs]
    | cons arg rest =>
      by_cases h2 : ('@' :: cfg.allowed_domain).isSuffixOf (normalizeEmail arg) = true
      · by_cases h3 : cfg.max_requests ≤ get_user_requests st.ledger req.uid
        · simp [otp_command, gateOrderSpec, h1, hargs, h2, h3]
        · cases hf : req.fetch with
          | returns res =>
            cases res with
            | none => simp [otp_command, gateOrderSpec, h1, hargs, h2, h3, hf]
            | some l =>
              cases l with
              | nil => simp [otp_command, gateOrderSpec, h1, hargs, h2, h3, hf]
              | cons c cs => simp [otp_command, gateOrderSpec, h1, hargs, h2, h3, hf]
          | raisesHttp => simp [otp_command, gateOrderSpec, h1, hargs, h2, h3, hf]
          | raisesOther => simp [otp_command, gateOrderSpec, h1, hargs, h2, h3, hf]
      · simp [otp_command, gateOrderSpec, h1, hargs, h2]

/-! ### Frame of a successful request — claim C9 -/

/-- C9: a successful otp request by user `req.uid` for email `emailOf req`
mutates exactly the requester's usage count, the email's cached code, and the
requester's cooldown; every other user's usage count and cooldown and every
other email's cached entry are unchanged. -/
theorem success_frame (cfg : Config) (st : BotState) (req : Request)
    (hsucc : (otp_command cfg st req).2.2 = Outcome.success) :
    ((otp_command cfg st req).1.ledger.user_requests req.uid
        = some (get_user_requests st.ledger req.uid + 1)
      ∧ (otp_command cfg st req).1.ledger.cooldowns req.uid
          = some (req.now + COOLDOWN_SECONDS)
      ∧ (otp_command cfg st req).1.ledger.cached_otps (emailOf req)
          = some (fetchedCode req, req.now))
    ∧ (∀ u, u ≠ req.uid →
        (otp_command cfg st req).1.ledger.user_requests u = st.ledger.user_requests u
          ∧ (otp_command cfg st req).1.ledger.cooldowns u = st.ledger.cooldowns u)
    ∧ (∀ e, e ≠ emailOf req →
        (otp_command cfg st req).1.ledger.cached_otps e = st.ledger.cached_otps e) := by
  refine ⟨⟨?_, ?_, ?_⟩, fun u hu => ⟨?_, ?_⟩, fun e he => ?_⟩
  · rw [user_requests_after]; simp [hsucc]
  · rw [cooldowns_after]; simp [hsucc]
  · rw [cached_after]; simp [hsucc]
  · rw [user_requests_after]; simp [hu]
  · rw [cooldowns_after]; simp [hu]
  · rw [cached_after]; simp [he]

/-- C9 witness: the frame theorem applied to a successful concrete request by
user 1: user 2's usage record is untouched. -/
theorem success_frame_witness :
    (otp_command defaultConfig initState successReq).1.ledger.user_requests 2
      = initState.ledger.user_requests 2 :=
  ((success_frame defaultConfig initState successReq (by decide)).2.1 2 (by decide)).1

/-! ### Quota ceiling under sequential execution — claim C10 -/

/-- C10: under sequential execution, a user whose usage count is at most
`MAX_REQUESTS_PER_USER` before a dispatched request still has usage at most
`MAX_REQUESTS_PER_USER` after it: the increment is only reachable when the
prior count is strictly below the ceiling. -/
theorem quota_ceiling_preserved (cfg : Config) (st : BotState) (req : Request) (u : Nat)
    (h : get_user_requests st.ledger u ≤ cfg.max_requests) :
    get_user_requests (stepB cfg st req).1.ledger u ≤ cfg.max_requests := by
  by_cases hex : st.exited
  · simpa [stepB, hex] using h
  · simp only [stepB, hex, Bool.false_eq_true, if_false]
    unfold get_user_requests at h ⊢
    rw [user_requests_after]
    split
    · rename_i hc
      have hlt := success_quota_lt cfg st req hc.2
      unfold get_user_requests at hlt ⊢
      simp only [Option.getD_some]
      omega
    · exact h

/-- C10 witness: the quota-ceiling theorem on a fresh state and a successful
concrete request by user 1. -/
theorem quota_ceiling_preserved_witness :
    get_user_requests (stepB defaultConfig initState successReq).1.ledger 1
      ≤ defaultConfig.max_requests :=
  quota_ceiling_preserved defaultConfig initState successReq 1 (by decide)

/-! ### Repeated code on the success path — claim C5 -/

/-- C5 counterexample: the fetched code `123456` equals the code previously
recorded for `a@yotomail.com`, yet the replies are exactly the two normal
success-path messages and coincide with the replies of the same request run
against a state with no previously recorded code — no staleness warning is
emitted, contrary to the claim. -/
theorem stale_code_no_warning :
    (otp_command defaultConfig
        (withCachedValue initState (String.toList "a@yotomail.com")
          (some (String.toList "123456", 0))) successReq).2.1
      = (otp_command defaultConfig initState successReq).2.1
    ∧ (otp_command defaultConfig initState successReq).2.1
        = [Reply.waiting 30 (String.toList "a@yotomail.com") 9,
            Reply.otpFound (String.toList "123456") (String.toList "a@yotomail.com") 9] := by
  refine ⟨?_, ?_⟩ <;> decide

/-- C5 (amended): on a successful fetch the orchestrator's behaviour — replies
sent, outcome, and every ledger effect (increment usage, record code, arm
cooldown) — is identical whatever code was previously recorded for that email,
equal or not; no staleness warning exists. -/
theorem success_ignores_previous_cache (cfg : Config) (st : BotState) (req : Request)
    (arg : List Char) (rest : List (List Char)) (prior : Option (List Char × Nat))
    (hargs : req.args = arg :: rest)
    (hsucc : (otp_command cfg st req).2.2 = Outcome.success) :
    otp_command cfg (withCachedValue st (normalizeEmail arg) prior) req
      = otp_command cfg st req := by
  obtain ⟨⟨lur, lco, lcd⟩, sc, se⟩ := st
  by_cases h1 : 0 < remaining_cooldown (Ledger.mk lur lco lcd) req.uid req.now
  · simp [otp_command, h1] at hsucc
  · by_cases h2 : ('@' :: cfg.allowed_domain).isSuffixOf (normalizeEmail arg) = true
    · by_cases h3 : cfg.max_requests ≤ (lur req.uid).getD 0
      · simp [otp_command, get_user_requests, h1, hargs, h2, h3] at hsucc
      · cases hf : req.fetch with
        | returns res =>
          cases res with
          | none => simp [otp_command, get_user_requests, h1, hargs, h2, h3, hf] at hsucc
          | some l =>
            cases l with
            | nil => simp [otp_command, get_user_requests, h1, hargs, h2, h3, hf] at hsucc
            | cons c cs =>
              have hrc : remaining_cooldown
                  (Ledger.mk lur (fun e => if e = normalizeEmail arg then prior else lco e) lcd)
                  req.uid req.now
                  = remaining_cooldown (Ledger.mk lur lco lcd) req.uid req.now := rfl
              have hca : (fun e2 => if e2 = normalizeEmail arg then some ((c :: cs, req.now))
                    else if e2 = normalizeEmail arg then prior else lco e2)
                  = (fun e2 => if e2 = normalizeEmail arg then some ((c :: cs, req.now))
                      else lco e2) := by
                funext e2
                by_cases he : e2 = normalizeEmail arg <;> simp [he]
              simp [otp_command, withCachedValue, get_user_requests, hargs, hf, hrc,
                h1, h2, h3, increment_user_requests, cache_otp, set_cooldown,
                note_net_success, hca]
        | raisesHttp => simp [otp_command, get_user_requests, h1, hargs, h2, h3, hf] at hsucc
        | raisesOther => simp [otp_command, get_user_requests, h1, hargs, h2, h3, hf] at hsucc
    · simp [otp_command, h1, hargs, h2] at hsucc

/-- C5 witness: the amended theorem at a concrete request whose fetch returns
`123456` while `999999` was previously recorded for the address. -/
theorem success_ignores_previous_cache_witness :
    otp_command defaultConfig
        (withCachedValue initState (normalizeEmail (String.toList "a@yotomail.com"))
          (some (String.toList "999999", 5))) successReq
      = otp_command defaultConfig initState successReq :=
  success_ignores_previous_cache defaultConfig initState successReq
    (String.toList "a@yotomail.com") [] (some (String.toList "999999", 5)) rfl (by decide)

/-! ### Trace-level accounting — claims C1 and C7 -/

theorem get_user_requests_after (cfg : Config) (st : BotState) (req : Request) (u : Nat) :
    get_user_requests (otp_command cfg st req).1.ledger u
      = get_user_requests st.ledger u
        + (if u = req.uid ∧ (otp_command cfg st req).2.2 = Outcome.success
            then 1 else 0) := by
  unfold get_user_requests
  rw [user_requests_after]
  split
  · rename_i hc
    obtain ⟨hu, -⟩ := hc
    subst hu
    simp [get_user_requests]
  · simp

theorem usage_runTrace (cfg : Config) : ∀ (reqs : List Request) (st : BotState) (u : Nat),
    get_user_requests (runTrace cfg st reqs).1.ledger u
      = get_user_requests st.ledger u + successCount u (runTrace cfg st reqs).2 := by
  intro reqs
  induction reqs with
  | nil => intro st u; simp [runTrace, successCount]
  | cons req reqs ih =>
    intro st u
    by_cases hex : st.exited
    · simp only [runTrace, stepB, hex, if_true]
      exact ih st u
    · simp only [runTrace, stepB, hex, Bool.false_eq_true, if_false]
      rw [ih ((otp_command cfg st req).1) u]
      rw [get_user_requests_after]
      unfold successCount
      rw [List.countP_cons]
      by_cases hcond : u = req.uid ∧ (otp_command cfg st req).2.2 = Outcome.success <;>
        simp [hcond] <;> omega

theorem err_inv_step (cfg : Config) (st : BotState) (req : Request)
    (ht : 0 < cfg.error_threshold)
    (hle : st.consec_errors ≤ cfg.error_threshold)
    (hlt : st.exited = false → st.consec_errors < cfg.error_threshold)
    (hb : st.exited = false) :
    (otp_command cfg st req).1.consec_errors ≤ cfg.error_threshold
      ∧ ((otp_command cfg st req).1.exited = false →
          (otp_command cfg st req).1.consec_errors < cfg.error_threshold) := by
  have hc := consec_after cfg st req
  have he := exited_after cfg st req
  rcases hout : (otp_command cfg st req).2.2 <;> rw [hout] at hc he <;>
    simp only [reduceCtorEq, or_self, or_false, false_or, if_false, if_true,
      Bool.false_eq_true] at hc he <;> rw [hc]
  case success =>
    exact ⟨Nat.le_of_lt ht, fun _ => ht⟩
  case notFound =>
    exact ⟨Nat.le_of_lt ht, fun _ => ht⟩
  case fetchError =>
    have hlt2 := hlt hb
    rw [hb] at he
    constructor
    · omega
    · intro hxf
      rw [he] at hxf
      simp only [Bool.false_or, decide_eq_false_iff_not] at hxf
      omega
  all_goals exact ⟨hle, fun hx => hlt (he ▸ hx)⟩

theorem err_inv_runTrace (cfg : Config) (ht : 0 < cfg.error_threshold) :
    ∀ (reqs : List Request) (st : BotState),
      st.consec_errors ≤ cfg.error_threshold →
      (st.exited = false → st.consec_errors < cfg.error_threshold) →
      ((runTrace cfg st reqs).1.consec_errors ≤ cfg.error_threshold
        ∧ ((runTrace cfg st reqs).1.exited = false →
            (runTrace cfg st reqs).1.consec_errors < cfg.error_threshold)) := by
  intro reqs
  induction reqs with
  | nil => intro st hle hlt; exact ⟨hle, hlt⟩
  | cons req reqs ih =>
    intro st hle hlt
    by_cases hex : st.exited
    · simp only [runTrace, stepB, hex, if_true]
      exact ih st hle hlt
    · simp only [runTrace, stepB, hex, Bool.false_eq_true, if_false]
      have hb : st.exited = false := by
        cases hx : st.exited with
        | true => exact absurd hx hex
        | false => rfl
      obtain ⟨k1, k2⟩ := err_inv_step cfg st req ht hle hlt hb
      exact ih ((otp_command cfg st req).1) k1 k2

/-- C1: starting from a fresh ledger, after any interleaving of dispatched
requests the usage counter of each user equals exactly the number of success
outcomes attributed to that user — the counter is incremented exactly on the
success outcome; and at each step the cooldown is armed (to `now + 180`)
exactly on a completed fetch (success or not-found) and never on a fetch error
or a blocked request. -/
theorem usage_counts_successes_cooldown_on_completion :
    (∀ cfg reqs u, get_user_requests (runTrace cfg initState reqs).1.ledger u
        = successCount u (runTrace cfg initState reqs).2)
    ∧ (∀ cfg st req u, (otp_command cfg st req).1.ledger.cooldowns u
        = if u = req.uid ∧ ((otp_command cfg st req).2.2 = Outcome.success
              ∨ (otp_command cfg st req).2.2 = Outcome.notFound)
            then some (req.now + COOLDOWN_SECONDS)
            else st.ledger.cooldowns u)
    ∧ (∀ cfg st req u, get_user_requests (otp_command cfg st req).1.ledger u
        = get_user_requests st.ledger u
          + (if u = req.uid ∧ (otp_command cfg st req).2.2 = Outcome.success
              then 1 else 0)) := by
  refine ⟨fun cfg reqs u => ?_, cooldowns_after, get_user_requests_after⟩
  rw [usage_runTrace]
  simp [initState, get_user_requests, emptyLedger]

/-- C7: a fetch error increments the process-wide consecutive-error counter, a
completed fetch (success or not-found) resets it to zero, a blocked request
leaves it alone; with a positive configured threshold the process exits exactly
when the incremented counter reaches the threshold, so along every trace from
the initial state the counter never exceeds the threshold, and stays strictly
below it while the process is running. -/
theorem error_counter_threshold :
    (∀ cfg reqs, 0 < cfg.error_threshold →
        ((runTrace cfg initState reqs).1.consec_errors ≤ cfg.error_threshold
          ∧ ((runTrace cfg initState reqs).1.exited = false →
              (runTrace cfg initState reqs).1.consec_errors < cfg.error_threshold)))
    ∧ (∀ cfg st req, (otp_command cfg st req).1.consec_errors
        = if (otp_command cfg st req).2.2 = Outcome.success
              ∨ (otp_command cfg st req).2.2 = Outcome.notFound then 0
          else if (otp_command cfg st req).2.2 = Outcome.fetchError
            then st.consec_errors + 1
          else st.consec_errors)
    ∧ (∀ cfg st req, (otp_command cfg st req).1.exited
        = if (otp_command cfg st req).2.2 = Outcome.fetchError
            then (st.exited
              || decide (0 < cfg.error_threshold
                  ∧ cfg.error_threshold ≤ st.consec_errors + 1))
            else st.exited) :=
  ⟨fun cfg reqs ht =>
      err_inv_runTrace cfg ht reqs initState (Nat.zero_le _) (fun _ => ht),
    consec_after, exited_after⟩

/-- C7 witness: the bound applied to the default configuration and a
one-request trace whose fetch raises: the counter stays at most 6. -/
theorem error_counter_threshold_witness :
    (runTrace defaultConfig initState
        [Request.mk 1 [String.toList "a@yotomail.com"] 0 FetchOutcome.raisesHttp]).1.consec_errors
      ≤ defaultConfig.error_threshold :=
  (error_counter_threshold.1 defaultConfig
    [Request.mk 1 [String.toList "a@yotomail.com"] 0 FetchOutcome.raisesHttp]
    (by decide)).1

end OtpBot
